import Mathlib

/-!
Shallow embedding of `raspadorlegislativo/spiders/senado.py`.

The spiders walk a chain of remote lookups per bill (list → detail →
authorship → text manifest → N PDFs), accumulating matched keywords, and a
separate agenda spider classifies and describes calendar events.  Network
transport, XML extraction and PDF text extraction are external collaborators:
they are modelled as function parameters or as pre-extracted fields of
response structures, while the control flow, filtering and string assembly of
the spider code are translated faithfully, including its Python-level
semantics (truthiness, `None`, bound-method comparison).
-/

namespace Senado

/-- A Python value as it occurs in the manifest filter expression: either a
string, or a bound method object such as `s.lower` (referenced, not called).
In Python, comparing a bound method to a string with `==` is `False`. -/
inductive PyVal where
  | str : String → PyVal
  | boundMethod : String → String → PyVal
deriving DecidableEq, Repr

/-- Python `==` on such values: structural; a bound method never equals a
string. -/
def pyEq (a b : PyVal) : Bool := decide (a = b)

/-- Python rendering of an optional string inside an f-string:
`None` prints as `"None"`. -/
def pyStr : Option String → String
  | Option.none => "None"
  | Option.some s => s

/-- `extract_first` results are `str` or `None`; queue entries (`UrlTexto`
texts) therefore have this type. -/
abbrev Url := Option String

/-- The bill dict built in `SenadoSpider.parse_bill` (`data = {...}`), with
`autoria`/`autoria_ids` filled in later by `parse_authorship`. The
matched-keyword set `palavras_chave` is kept as an insertion-ordered
duplicate-free list while accumulating. -/
structure BillData where
  palavras_chave : List String
  palavras_chave_originais : Option String
  nome : String
  id_site : Option String
  apresentacao : Option String
  ementa : Option String
  local_ : Option String
  origem : String
  url : String
  autoria : Option String := Option.none
  autoria_ids : Option String := Option.none
deriving DecidableEq, Repr

/-- The finalized `Bill(item)` record: same fields, but `palavras_chave`
has been flattened to its comma-joined string. -/
structure BillItem where
  palavras_chave : String
  palavras_chave_originais : Option String
  nome : String
  id_site : Option String
  apresentacao : Option String
  ementa : Option String
  local_ : Option String
  origem : String
  url : String
  autoria : Option String
  autoria_ids : Option String
deriving DecidableEq, Repr

/-- The `meta` dict forwarded with each PDF fetch request
(`{'bill': item, 'urls': urls, 'keywords': ...}`). -/
structure PdfMeta where
  bill : BillData
  urls : List Url
  keywords : Option String
deriving DecidableEq, Repr

/-- What one invocation of `next_pdf_or_item` / `parse_pdf` yields: a
finalized `Bill` item, `None`, or a follow-up PDF `Request`. -/
inductive StepResult where
  | item : BillItem → StepResult
  | nothing : StepResult
  | request : Url → PdfMeta → StepResult
deriving DecidableEq, Repr

/-- Adding one keyword to the matched set (`set.add`): a no-op when already
present, else appended (first-discovery order). -/
def kwInsert (xs : List String) (k : String) : List String :=
  if xs.contains k then xs else xs ++ [k]

/-- Union of the matched set with a batch of newly matched keywords. -/
def kwUnion (xs ys : List String) : List String :=
  ys.foldl kwInsert xs

/-- Modelled from the spec: `BillSpider.collect_keywords` lives in
`raspadorlegislativo/spiders/__init__.py`, which is outside the source
excerpt.  Per the spec (§2, §6), the external KeywordMatcher returns the
subset of configured keywords found in a text blob, and each stage unions the
matches into the record's matched-keyword set.  The matcher itself is the
abstract parameter `f`. -/
def collect_keywords (f : Option String → List String) (bill : BillData)
    (text : Option String) : BillData :=
  { bill with palavras_chave := kwUnion bill.palavras_chave (f text) }

/-- Finalization of the dict into a `Bill` item:
`item['palavras_chave'] = ', '.join(item['palavras_chave'])`. -/
def finalize (b : BillData) : BillItem :=
  { palavras_chave := ", ".intercalate b.palavras_chave
    palavras_chave_originais := b.palavras_chave_originais
    nome := b.nome
    id_site := b.id_site
    apresentacao := b.apresentacao
    ementa := b.ementa
    local_ := b.local_
    origem := b.origem
    url := b.url
    autoria := b.autoria
    autoria_ids := b.autoria_ids }

/-- `SenadoSpider.next_pdf_or_item` (senado.py:103-122).  `matchers` is the
truthiness of `settings.MATCHERS` (whether a keyword-match configuration is
present). -/
def next_pdf_or_item (matchers : Bool) (bill : BillData) (keywords : Option String)
    (pending_texts : List Url) : StepResult :=
  match pending_texts with
  | [] =>
    let item := finalize bill
    if !matchers then StepResult.item item
    else if item.palavras_chave ≠ "" then StepResult.item item
    else StepResult.nothing
  | url :: urls => StepResult.request url ⟨bill, urls, keywords⟩

/-- The keyword scan inside `SenadoSpider.parse_pdf` (senado.py:94-98): the
PDF text extracted for the fetched URL is run through the matcher and the
matches are unioned into the bill.  `pdfText` stands for the external
`text_from_pdf` of the response for a given URL. -/
def pdfScan (f : Option String → List String) (pdfText : Url → String)
    (bill : BillData) (url : Url) : BillData :=
  collect_keywords f bill (Option.some (pdfText url))

/-- `SenadoSpider.parse_pdf` (senado.py:93-101): scan the fetched PDF, then
continue with the remaining queue from the request meta. -/
def parse_pdf (matchers : Bool) (f : Option String → List String)
    (pdfText : Url → String) (url : Url) (meta : PdfMeta) : StepResult :=
  next_pdf_or_item matchers (pdfScan f pdfText meta.bill url) meta.keywords meta.urls

/-- N successive PDF-stage invocations, each consuming (popping and scanning)
one URL of the pending queue exactly as the
`next_pdf_or_item` → `parse_pdf` chain does; once the queue is drained no
further invocation happens. -/
def drainN (f : Option String → List String) (pdfText : Url → String) :
    BillData × List Url → Nat → BillData × List Url
  | s, 0 => s
  | (b, []), _ + 1 => (b, [])
  | (b, u :: us), n + 1 => drainN f pdfText (pdfScan f pdfText b u, us) n

/-! ## Detail stage (`parse_bill`) -/

/-- The fields `parse_bill` extracts from the detail response via fixed XML
paths; each `extract_first` may yield `None`. -/
structure DetailResponse where
  ementa : Option String
  indexacao : Option String
  numero : Option String
  siglaSubtipo : Option String
  codigoMateria : Option String
  dataApresentacao : Option String
  nomeLocal : Option String
deriving DecidableEq, Repr

/-- `urls['humans'].format(code)`. -/
def humans_url (code : String) : String :=
  "https://www25.senado.leg.br/web/atividade/materias/-/materia/" ++ code

/-- `urls['authorship'].format(code)`. -/
def authorship_url (code : String) : String :=
  "http://legis.senado.leg.br/dadosabertos/materia/autoria/" ++ code

/-- The authorship request yielded by `parse_bill`: url plus the forwarded
meta `{'bill': data, 'keywords': keywords, 'code': ...}`. -/
structure AuthRequest where
  url : String
  bill : BillData
  keywords : Option String
  code : String
deriving DecidableEq, Repr

/-- `SenadoSpider.parse_bill` (senado.py:50-73): seed the bill dict from the
detail response, run the matcher over the description and the raw
keyword-index text, and yield the authorship request. -/
def parse_bill (f : Option String → List String) (resp : DetailResponse)
    (code : String) : AuthRequest :=
  let description := resp.ementa
  let keywords := resp.indexacao
  let data : BillData :=
    { palavras_chave := []
      palavras_chave_originais := keywords
      nome := pyStr resp.siglaSubtipo ++ " " ++ pyStr resp.numero
      id_site := resp.codigoMateria
      apresentacao := resp.dataApresentacao
      ementa := description
      local_ := resp.nomeLocal
      origem := "SE"
      url := humans_url code }
  let data := collect_keywords f data description
  let data := collect_keywords f data keywords
  { url := authorship_url code, bill := data, keywords := keywords, code := code }

/-! ## Text-manifest stage (`parse_texts`) -/

/-- One `<Text>` element of the manifest response: its own `TipoDocumento`
text and its own `UrlTexto` text (either may be absent). -/
structure TextEntry where
  tipoDocumento : Option String
  urlTexto : Option String
deriving DecidableEq, Repr

/-- `response.xpath('//TipoDocumento/text()').extract_first()`: the xpath in
the source starts with `//`, so even when called on a sub-selector it scans
the whole document; `extract_first` returns the first `TipoDocumento` text in
document order, or `None`. -/
def extract_first_tipo (entries : List TextEntry) : Option String :=
  (entries.filterMap TextEntry.tipoDocumento).head?

/-- `text.xpath('//UrlTexto/text()').extract_first()`: likewise scans the
whole document, yielding the first `UrlTexto` text or `None`. -/
def extract_first_url (entries : List TextEntry) : Url :=
  (entries.filterMap TextEntry.urlTexto).head?

/-- The filter condition of the generator in `parse_texts` (senado.py:89):
`text.xpath('//TipoDocumento/text()').extract_first().lower == 'pdf'`.
On `None` the attribute access `.lower` raises `AttributeError`; on a string
it yields the bound method object, which is compared (not called) against
`'pdf'`. -/
def tipoCond (entries : List TextEntry) : Except String Bool :=
  match extract_first_tipo entries with
  | Option.none => Except.error "AttributeError"
  | Option.some s => Except.ok (pyEq (PyVal.boundMethod s "lower") (PyVal.str "pdf"))

/-- Evaluation of the generator expression in `parse_texts` over the
elements of `response.xpath('//Text')`: one condition evaluation per element
(aborting with the exception if it raises), keeping the item expression's
value when the condition is true. -/
def parse_texts_go (entries : List TextEntry) : List TextEntry → Except String (List Url)
  | [] => Except.ok []
  | _e :: rest =>
    match tipoCond entries with
    | Except.error err => Except.error err
    | Except.ok cond =>
      match parse_texts_go entries rest with
      | Except.error err => Except.error err
      | Except.ok tail =>
        if cond then Except.ok (extract_first_url entries :: tail) else Except.ok tail

/-- `SenadoSpider.parse_texts` (senado.py:85-91): build the pending-texts
tuple from the manifest response. -/
def parse_texts (entries : List TextEntry) : Except String (List Url) :=
  parse_texts_go entries entries

/-- Character-wise lowercasing of a string (the result of Python's
`str.lower()` when it is actually called on an ASCII tag). -/
def pyLower (s : String) : String := String.mk (s.data.map Char.toLower)

/-- The contract stated by the spec for the manifest scan (§4.5), as a second
definition to compare against the code: for each document entry, read that
entry's own type tag and its own URL, and keep the entry iff its own type tag
(case-insensitively) denotes PDF; unclassifiable entries are excluded. -/
def parse_texts_contract (entries : List TextEntry) : List Url :=
  (entries.filter fun e =>
    match e.tipoDocumento with
    | Option.none => false
    | Option.some s => pyLower s == "pdf").map TextEntry.urlTexto

/-! ## Discovery (`start_requests`) -/

/-- `SenadoSpider.subjects`. -/
def subjects : List String := ["PLS", "PLC", "PEC"]

/-- One list-lookup request: `urls['list'].format(subject, year)` fills
`sigla={}&ano={}`. -/
structure ListRequest where
  sigla : String
  ano : Nat
deriving DecidableEq, Repr

/-- `SenadoSpider.start_requests` (senado.py:33-38):
`range(start_date.year, date.today().year + 1)` crossed with `subjects`
(years outer, subjects inner, as `itertools.product` iterates). -/
def start_requests (startYear todayYear : Nat) : List ListRequest :=
  (List.range' startYear (todayYear + 1 - startYear)).flatMap
    fun year => subjects.map fun subject => ⟨subject, year⟩

end Senado

namespace AgendaSenado

/-- Strip `p` as a prefix of `cs`, returning the remainder, or nothing when
`p` is not a prefix. -/
def dropPref : List Char → List Char → Option (List Char)
  | [], rest => Option.some rest
  | _ :: _, [] => Option.none
  | p :: ps, c :: cs => if p = c then dropPref ps cs else Option.none

/-- After the subject code has been consumed, the regex tail ` ?\d+` must
match a prefix of the remainder: at most one space, then at least one digit
(the single optional space backtracks to zero when no digit follows it). -/
def afterSubj : List Char → Bool
  | [] => false
  | c :: rest2 =>
    if c.isDigit then true
    else if c = ' ' then
      match rest2 with
      | [] => false
      | c2 :: _ => c2.isDigit
    else false

/-- Does the regex `subj ?\d+` (the subject code, at most one space, then one
or more digits) match starting exactly at the head of `cs`? -/
def matchHere (subj : List Char) (cs : List Char) : Bool :=
  match dropPref subj cs with
  | Option.none => false
  | Option.some rest => afterSubj rest

/-- `re.findall(pattern, text)` is non-empty iff the pattern matches at some
position of the text. -/
def findsMatch (subj : List Char) : List Char → Bool
  | [] => false
  | c :: cs => matchHere subj (c :: cs) || findsMatch subj cs

/-- `AgendaSenadoSpider.is_related_to_a_bill` (senado.py:148-153): for each
configured subject code, search the event's raw text for
`'{} ?\d+'.format(subject)`. -/
def is_related_to_a_bill (text : String) : Bool :=
  Senado.subjects.any fun subject => findsMatch subject.toList text.toList

/-- One `Convidado` element: its `Nome` and `Cargo` texts. -/
structure Invitee where
  nome : Option String
  cargo : Option String
deriving DecidableEq, Repr

/-- The fields of one `Reuniao` event element that `parse_description` and
`parse_invitees` read. -/
structure AgendaEvent where
  finalidade : Option String
  observacoes : Option String
  convidados : List Invitee
  itens : List String
deriving DecidableEq, Repr

/-- `AgendaSenadoSpider.parse_invitees` (senado.py:183-188): each invitee is
rendered as `f'* {name} ({title})'`. -/
def parse_invitees (ev : AgendaEvent) : List String :=
  ev.convidados.map fun i => "* " ++ Senado.pyStr i.nome ++ " (" ++ Senado.pyStr i.cargo ++ ")"

/-- The `objective` local of `parse_description` (senado.py:163-165). -/
def objectiveFragment (ev : AgendaEvent) : String :=
  let objective := ev.finalidade.getD ""
  if objective ≠ "" then "**Finalidade**\n" ++ objective else objective

/-- The `ps` local of `parse_description` (senado.py:167-169). -/
def psFragment (ev : AgendaEvent) : String :=
  let ps := ev.observacoes.getD ""
  if ps ≠ "" then "**Observações**\n" ++ ps else ps

/-- The `invitees` local of `parse_description` (senado.py:171-174):
`tuple(...) or ''` is the empty string when there are no invitees, else the
heading plus the newline-joined invitee lines. -/
def inviteesFragment (ev : AgendaEvent) : String :=
  let invitees := parse_invitees ev
  if invitees ≠ [] then "**Convidados**\n\n" ++ "\n".intercalate invitees else ""

/-- The `items` local of `parse_description` (senado.py:176-178); note the
heading carries a space after the newline in the source f-string. -/
def itemsFragment (ev : AgendaEvent) : String :=
  let items := ", ".intercalate ev.itens
  if items ≠ "" then "**Pauta**\n " ++ items else items

/-- `AgendaSenadoSpider.parse_description` (senado.py:162-181): join the
truthy fragments, in the order objective, items, observations, invitees,
with a blank line between them. -/
def parse_description (ev : AgendaEvent) : String :=
  "\n\n".intercalate
    (([objectiveFragment ev, itemsFragment ev, psFragment ev, inviteesFragment ev]).filter
      fun text => text != "")

end AgendaSenado

/-- A concrete bill dict, used to instantiate general theorems. -/
def sampleBill : Senado.BillData :=
  { palavras_chave := ["edu"]
    palavras_chave_originais := Option.none
    nome := "PLS 1"
    id_site := Option.some "42"
    apresentacao := Option.none
    ementa := Option.some "ementa"
    local_ := Option.none
    origem := "SE"
    url := "https://www25.senado.leg.br/web/atividade/materias/-/materia/42" }

open Senado AgendaSenado

/-- C1: when the pending-text queue is empty, `next_pdf_or_item` first
flattens the matched-keyword set into its comma-joined string; with no
keyword-match configuration the record is emitted unconditionally; with a
configuration it is emitted iff the serialized keyword string is non-empty,
and otherwise nothing is produced. -/
theorem c1_finalization_emit_rule (b : BillData) (kw : Option String) :
    (finalize b).palavras_chave = ", ".intercalate b.palavras_chave
    ∧ next_pdf_or_item false b kw [] = StepResult.item (finalize b)
    ∧ (next_pdf_or_item true b kw [] = StepResult.item (finalize b)
        ↔ (finalize b).palavras_chave ≠ "")
    ∧ (next_pdf_or_item true b kw [] = StepResult.nothing
        ↔ (finalize b).palavras_chave = "") := by
  refine ⟨rfl, rfl, ?_, ?_⟩
  · by_cases h : (finalize b).palavras_chave = "" <;> simp [next_pdf_or_item, h]
  · by_cases h : (finalize b).palavras_chave = "" <;> simp [next_pdf_or_item, h]

/-- C3: on a manifest whose single entry is tagged `pdf` with its own URL,
the source's filter (bound-method comparison, document-rooted xpath) keeps
nothing, while the spec's per-entry contract keeps that entry's URL. -/
theorem c3_manifest_filter_drops_pdf_entry :
    parse_texts [⟨Option.some "pdf", Option.some "http://x.pdf"⟩] = Except.ok []
    ∧ parse_texts_contract [⟨Option.some "pdf", Option.some "http://x.pdf"⟩]
        = [Option.some "http://x.pdf"] := by
  constructor <;> rfl

/-- C4: a manifest containing a document entry but no classifiable
document-type tag makes the source's scan raise (`None.lower`), while the
spec's per-entry contract merely excludes the unclassifiable entry. -/
theorem c4_manifest_scan_raises :
    parse_texts [⟨Option.none, Option.some "u"⟩] = Except.error "AttributeError"
    ∧ parse_texts_contract [⟨Option.none, Option.some "u"⟩] = [] := by
  constructor <;> rfl

/-- C8: the composed event description is exactly the non-empty fragments,
each under its fixed heading, joined by a blank line in the fixed order
objective, items, observations, invitees; empty fragments contribute no
heading and no separator; and with only the objective "Discuss budget"
present the output is exactly that labeled fragment. -/
theorem c8_description_composition (ev : AgendaEvent) :
    parse_description ev =
      "\n\n".intercalate
        (([objectiveFragment ev, itemsFragment ev, psFragment ev, inviteesFragment ev]).filter
          fun text => text != "")
    ∧ objectiveFragment ev =
        (if ev.finalidade.getD "" = "" then ""
         else "**Finalidade**\n" ++ ev.finalidade.getD "")
    ∧ itemsFragment ev =
        (if ", ".intercalate ev.itens = "" then ""
         else "**Pauta**\n " ++ ", ".intercalate ev.itens)
    ∧ psFragment ev =
        (if ev.observacoes.getD "" = "" then ""
         else "**Observações**\n" ++ ev.observacoes.getD "")
    ∧ inviteesFragment ev =
        (if ev.convidados = [] then ""
         else "**Convidados**\n\n" ++ "\n".intercalate (parse_invitees ev))
    ∧ parse_description ⟨Option.some "Discuss budget", Option.none, [], []⟩
        = "**Finalidade**\nDiscuss budget" := by
  refine ⟨rfl, ?_, ?_, ?_, ?_, by rfl⟩
  · by_cases h : ev.finalidade.getD "" = "" <;> simp [objectiveFragment, h]
  · by_cases h : ", ".intercalate ev.itens = "" <;> simp [itemsFragment, h]
  · by_cases h : ev.observacoes.getD "" = "" <;> simp [psFragment, h]
  · by_cases h : ev.convidados = [] <;> simp [inviteesFragment, parse_invitees, h]

/-- C9 counterexample: at an event with the single invitee Ana (Ministra),
the rendered line carries a leading bullet, so it is not the string
`"Ana (Ministra)"` the claim prescribes. -/
theorem c9_counterexample :
    parse_invitees ⟨Option.none, Option.none,
        [⟨Option.some "Ana", Option.some "Ministra"⟩], []⟩
      = ["* Ana (Ministra)"]
    ∧ parse_invitees ⟨Option.none, Option.none,
        [⟨Option.some "Ana", Option.some "Ministra"⟩], []⟩
      ≠ ["Ana (Ministra)"] := by
  exact ⟨rfl, by decide⟩

/-- C9 as amended: each invitee is rendered as `* <name> (<role>)` — an
asterisk-space bullet, the name, a space and the role in parentheses — one
line per invitee, and the description's invitee fragment joins those lines
with single newlines under the fixed heading. -/
theorem c9_invitee_rendering (ev : AgendaEvent) :
    parse_invitees ev
      = ev.convidados.map (fun i => "* " ++ pyStr i.nome ++ " (" ++ pyStr i.cargo ++ ")")
    ∧ (parse_invitees ev).length = ev.convidados.length
    ∧ inviteesFragment ev =
        (if ev.convidados = [] then ""
         else "**Convidados**\n\n" ++ "\n".intercalate (parse_invitees ev)) := by
  refine ⟨rfl, by simp [parse_invitees], ?_⟩
  by_cases h : ev.convidados = [] <;> simp [inviteesFragment, parse_invitees, h]

/-- Helper: the second component of the drain state after `n` PDF-stage
invocations is the original queue with its first `n` elements consumed. -/
lemma drainN_snd (f : Option String → List String) (pdfText : Url → String) :
    ∀ (n : Nat) (b : BillData) (q : List Url),
      (drainN f pdfText (b, q) n).2 = q.drop n := by
  intro n
  induction n with
  | zero => intro b q; simp [drainN]
  | succ n ih =>
    intro b q
    cases q with
    | nil => simp [drainN]
    | cons u us => simpa [drainN] using ih (pdfScan f pdfText b u) us

/-- C2: each PDF-stage invocation consumes exactly one URL from the pending
queue — `next_pdf_or_item` pops precisely the head when it issues the next
fetch; after `n` invocations the queue is the original one with `n` elements
dropped, of length `max(L − n, 0)`; and a follow-up PDF fetch is issued iff
the remaining queue is non-empty. -/
theorem c2_queue_drain (m : Bool) (f : Option String → List String)
    (pdfText : Url → String) (b : BillData) (kw : Option String)
    (q : List Url) (n : Nat) :
    (∀ u us b2, next_pdf_or_item m b2 kw (u :: us) = StepResult.request u ⟨b2, us, kw⟩)
    ∧ (drainN f pdfText (b, q) n).2 = q.drop n
    ∧ (((drainN f pdfText (b, q) n).2.length : Int)
        = max ((q.length : Int) - (n : Int)) 0)
    ∧ (∀ b2, (∃ u meta, next_pdf_or_item m b2 kw q = StepResult.request u meta)
        ↔ q ≠ []) := by
  refine ⟨fun u us b2 => rfl, drainN_snd f pdfText n b q, ?_, ?_⟩
  · rw [drainN_snd f pdfText n b q, List.length_drop]
    rcases Nat.le_total n q.length with h | h
    · rw [max_eq_left (by omega)]; omega
    · rw [max_eq_right (by omega)]; omega
  · intro b2
    cases q with
    | nil =>
      simp only [ne_eq, not_true_eq_false, iff_false, not_exists]
      intro u meta heq
      simp only [next_pdf_or_item] at heq
      split_ifs at heq
    | cons u us =>
      simp only [ne_eq, reduceCtorEq, not_false_eq_true, iff_true]
      exact ⟨u, ⟨b2, us, kw⟩, rfl⟩

/-- Helper: `set.add` never removes a keyword. -/
lemma mem_kwInsert (k y : String) (xs : List String) (h : k ∈ xs) :
    k ∈ kwInsert xs y := by
  unfold kwInsert
  split
  · exact h
  · exact List.mem_append_left _ h

/-- Helper: unioning a batch of matches never removes a keyword. -/
lemma mem_kwUnion (k : String) :
    ∀ (ys xs : List String), k ∈ xs → k ∈ kwUnion xs ys := by
  intro ys
  induction ys with
  | nil => intro xs h; exact h
  | cons y ys ih => intro xs h; exact ih (kwInsert xs y) (mem_kwInsert k y xs h)

/-- Helper: keywords survive any number of PDF-stage invocations. -/
lemma mem_drainN_fst (f : Option String → List String) (pdfText : Url → String)
    (k : String) :
    ∀ (n : Nat) (b : BillData) (q : List Url),
      k ∈ b.palavras_chave → k ∈ (drainN f pdfText (b, q) n).1.palavras_chave := by
  intro n
  induction n with
  | zero => intro b q h; simpa [drainN] using h
  | succ n ih =>
    intro b q h
    cases q with
    | nil => simpa [drainN] using h
    | cons u us =>
      have h2 := mem_kwUnion k (f (Option.some (pdfText u))) b.palavras_chave h
      simpa [drainN] using ih (pdfScan f pdfText b u) us h2

/-- C5: the matched-keyword set is monotonically non-decreasing — a keyword
already in the bill survives any further keyword-collection call and any
number of PDF-stage invocations, so the set at a later stage is a superset
of the set at any earlier stage. -/
theorem c5_keywords_monotone (f : Option String → List String)
    (pdfText : Url → String) (b : BillData) (q : List Url) (n : Nat)
    (t : Option String) (k : String) (hk : k ∈ b.palavras_chave) :
    k ∈ (collect_keywords f b t).palavras_chave
    ∧ k ∈ (drainN f pdfText (b, q) n).1.palavras_chave :=
  ⟨mem_kwUnion k (f t) b.palavras_chave hk, mem_drainN_fst f pdfText k n b q hk⟩

/-- C5 witness: instantiated at a concrete bill already carrying the keyword
`edu`, one pending URL and one PDF-stage invocation. -/
theorem c5_keywords_monotone_witness :
    "edu" ∈ sampleBill.palavras_chave
    ∧ ("edu" ∈ (collect_keywords (fun _ => ["lei"]) sampleBill Option.none).palavras_chave
       ∧ "edu" ∈ (drainN (fun _ => ["lei"]) (fun _ => "texto")
            (sampleBill, [Option.none]) 1).1.palavras_chave) :=
  ⟨by simp [sampleBill],
   c5_keywords_monotone (fun _ => ["lei"]) (fun _ => "texto") sampleBill
     [Option.none] 1 Option.none "edu" (by simp [sampleBill])⟩

/-- Helper: Python `==` between a bound method object and a string is
`False`. -/
lemma pyEq_boundMethod_str (s t u : String) :
    pyEq (PyVal.boundMethod s t) (PyVal.str u) = false := by
  rw [pyEq]
  exact decide_eq_false (fun h => PyVal.noConfusion h)

/-- Helper: when the manifest has a classifiable type tag somewhere, every
generator iteration of `parse_texts` evaluates the same always-false
condition and keeps nothing. -/
lemma parse_texts_go_ok (entries : List TextEntry)
    (hc : tipoCond entries = Except.ok false) :
    ∀ l, parse_texts_go entries l = Except.ok [] := by
  intro l
  induction l with
  | nil => rfl
  | cons e rest ih => simp [parse_texts_go, hc, ih]

/-- C10: whenever every manifest entry carries a type-tag string, the filter
condition (a bound `lower` method compared to `'pdf'`) is false for every
entry, so the pending-text queue is empty, the continuation never issues a
PDF fetch, and the bill's matched keywords are exactly those collected from
its description and raw keyword-index text at the detail stage. -/
theorem c10_pdf_stage_unreachable (entries : List TextEntry) (m : Bool)
    (b : BillData) (kw : Option String) (u : Url) (meta : PdfMeta)
    (f : Option String → List String) (resp : DetailResponse) (code : String)
    (h : ∀ e ∈ entries, e.tipoDocumento.isSome = true) :
    parse_texts entries = Except.ok []
    ∧ next_pdf_or_item m b kw [] ≠ StepResult.request u meta
    ∧ (parse_bill f resp code).bill.palavras_chave
        = kwUnion (kwUnion [] (f resp.ementa)) (f resp.indexacao) := by
  refine ⟨?_, ?_, rfl⟩
  · cases entries with
    | nil => rfl
    | cons e rest =>
      obtain ⟨s, hs⟩ := Option.isSome_iff_exists.mp (h e (List.mem_cons_self e rest))
      have htipo : extract_first_tipo (e :: rest) = Option.some s := by
        simp [extract_first_tipo, List.filterMap_cons, hs]
      have hc : tipoCond (e :: rest) = Except.ok false := by
        simp [tipoCond, htipo, pyEq_boundMethod_str]
      exact parse_texts_go_ok (e :: rest) hc (e :: rest)
  · intro heq
    simp only [next_pdf_or_item] at heq
    split_ifs at heq

/-- C10 witness: a one-entry manifest whose entry is tagged `pdf`. -/
theorem c10_pdf_stage_unreachable_witness :
    (∀ e ∈ [(⟨Option.some "pdf", Option.some "u"⟩ : TextEntry)], e.tipoDocumento.isSome = true)
    ∧ (parse_texts [(⟨Option.some "pdf", Option.some "u"⟩ : TextEntry)] = Except.ok []
       ∧ next_pdf_or_item true sampleBill Option.none []
           ≠ StepResult.request Option.none ⟨sampleBill, [], Option.none⟩
       ∧ (parse_bill (fun _ => []) ⟨Option.none, Option.none, Option.none, Option.none,
            Option.none, Option.none, Option.none⟩ "1").bill.palavras_chave
           = kwUnion (kwUnion [] []) []) :=
  ⟨by decide,
   c10_pdf_stage_unreachable [(⟨Option.some "pdf", Option.some "u"⟩ : TextEntry)]
     true sampleBill Option.none Option.none ⟨sampleBill, [], Option.none⟩
     (fun _ => []) ⟨Option.none, Option.none, Option.none, Option.none,
        Option.none, Option.none, Option.none⟩ "1" (by decide)⟩

/-- Helper: the per-year blocks of discovery requests are duplicate-free and
pairwise disjoint across distinct years. -/
lemma nodup_year_blocks :
    ∀ ys : List Nat, ys.Nodup →
      (ys.flatMap fun year =>
        subjects.map fun subject => (⟨subject, year⟩ : ListRequest)).Nodup := by
  intro ys
  induction ys with
  | nil => intro _; simp
  | cons y ys ih =>
    intro h
    rw [List.nodup_cons] at h
    rw [List.flatMap_cons, List.nodup_append]
    refine ⟨?_, ih h.2, ?_⟩
    · refine List.Nodup.map ?_ (by decide)
      intro s1 s2 hss
      exact congrArg ListRequest.sigla hss
    · intro r hr1 hr2
      simp only [List.mem_map] at hr1
      obtain ⟨s, _, rfl⟩ := hr1
      rw [List.mem_flatMap] at hr2
      obtain ⟨y2, hy2, hr2⟩ := hr2
      simp only [List.mem_map] at hr2
      obtain ⟨s2, _, hss⟩ := hr2
      have hyy : y2 = y := congrArg ListRequest.ano hss
      exact h.1 (hyy ▸ hy2)

/-- Helper: each year contributes exactly one request per subject. -/
lemma length_year_blocks :
    ∀ ys : List Nat,
      (ys.flatMap fun year =>
        subjects.map fun subject => (⟨subject, year⟩ : ListRequest)).length
      = 3 * ys.length := by
  intro ys
  induction ys with
  | nil => rfl
  | cons y ys ih =>
    rw [List.flatMap_cons, List.length_append, ih]
    have h3 : (subjects.map fun subject => (⟨subject, y⟩ : ListRequest)).length = 3 := rfl
    rw [h3, List.length_cons]
    omega

/-- C6: discovery issues exactly one list-lookup request per
(year from start-year to current-year inclusive) × (configured subject) pair,
all pairwise distinct; with start year 2020, current year 2022 and the three
configured subjects there are exactly 9 requests. -/
theorem c6_discovery_requests (a b : Nat) (s : String) (y : Nat) (h : a ≤ b) :
    (start_requests a b).length = 3 * (b + 1 - a)
    ∧ (start_requests a b).Nodup
    ∧ ((⟨s, y⟩ : ListRequest) ∈ start_requests a b ↔ s ∈ subjects ∧ a ≤ y ∧ y ≤ b)
    ∧ (start_requests 2020 2022).length = 9 := by
  refine ⟨?_, ?_, ?_, by rfl⟩
  · rw [start_requests, length_year_blocks, List.length_range']
  · exact nodup_year_blocks _ (List.nodup_range' a (b + 1 - a))
  · rw [start_requests, List.mem_flatMap]
    constructor
    · rintro ⟨y2, hy2, hmem⟩
      simp only [List.mem_map] at hmem
      obtain ⟨s2, hs2, hss⟩ := hmem
      have hyy : y2 = y := congrArg ListRequest.ano hss
      have hs : s2 = s := congrArg ListRequest.sigla hss
      subst hyy; subst hs
      rw [List.mem_range'_1] at hy2
      exact ⟨hs2, hy2.1, by omega⟩
    · rintro ⟨hs, hay, hyb⟩
      exact ⟨y, List.mem_range'_1.mpr ⟨hay, by omega⟩, List.mem_map.mpr ⟨s, hs, rfl⟩⟩

/-- C6 witness: start year 2020, current year 2022, subject PLS, year 2021. -/
theorem c6_discovery_requests_witness :
    2020 ≤ 2022
    ∧ ((start_requests 2020 2022).length = 3 * (2022 + 1 - 2020)
       ∧ (start_requests 2020 2022).Nodup
       ∧ ((⟨"PLS", 2021⟩ : ListRequest) ∈ start_requests 2020 2022
            ↔ "PLS" ∈ subjects ∧ 2020 ≤ 2021 ∧ 2021 ≤ 2022)
       ∧ (start_requests 2020 2022).length = 9) :=
  ⟨by omega, c6_discovery_requests 2020 2022 "PLS" 2021 (by omega)⟩

/-- Helper: stripping a prefix succeeds exactly on lists that extend it. -/
lemma dropPref_eq_some (p : List Char) :
    ∀ (cs r : List Char), dropPref p cs = Option.some r ↔ cs = p ++ r := by
  induction p with
  | nil => intro cs r; simp [dropPref]
  | cons p ps ih =>
    intro cs r
    cases cs with
    | nil => simp [dropPref]
    | cons c cs2 =>
      by_cases hpc : p = c
      · subst hpc
        simp [dropPref, ih]
      · constructor
        · intro hsome
          simp only [dropPref] at hsome
          rw [if_neg hpc] at hsome
          exact Option.noConfusion hsome
        · intro heq
          injection heq with h1 h2
          exact absurd h1.symm hpc

/-- Helper: the regex tail ` ?\d+` matches a prefix of `rest` iff `rest` is
an optional single space, then a digit, then anything. -/
lemma afterSubj_iff (rest : List Char) :
    afterSubj rest = true ↔
      ∃ sp d suf, (sp = [] ∨ sp = [' ']) ∧ d.isDigit = true
        ∧ rest = sp ++ d :: suf := by
  cases rest with
  | nil =>
    apply iff_of_false
    · simp [afterSubj]
    · rintro ⟨sp, d, suf, hsp, hd, heq⟩
      rcases hsp with rfl | rfl <;> simp at heq
  | cons c rest2 =>
    by_cases hd : c.isDigit = true
    · apply iff_of_true
      · simp [afterSubj, hd]
      · exact ⟨[], c, rest2, Or.inl rfl, hd, rfl⟩
    · by_cases hsp : c = ' '
      · subst hsp
        cases rest2 with
        | nil =>
          apply iff_of_false
          · decide
          · rintro ⟨sp, d, suf, hsp2, hd2, heq⟩
            rcases hsp2 with rfl | rfl
            · simp only [List.nil_append] at heq
              injection heq with h1 h2
              cases h1
              exact absurd hd2 (by decide)
            · simp only [List.singleton_append] at heq
              injection heq with h1 h2
              exact List.noConfusion h2
        | cons c2 rest3 =>
          have hspd : (' ' : Char).isDigit = false := by decide
          by_cases h2 : c2.isDigit = true
          · apply iff_of_true
            · simp [afterSubj, hspd, h2]
            · exact ⟨[' '], c2, rest3, Or.inr rfl, h2, rfl⟩
          · apply iff_of_false
            · simp [afterSubj, hspd, h2]
            · rintro ⟨sp, d, suf, hsp2, hd2, heq⟩
              rcases hsp2 with rfl | rfl
              · simp only [List.nil_append] at heq
                injection heq with h1 h2x
                cases h1
                exact absurd hd2 (by decide)
              · simp only [List.singleton_append] at heq
                injection heq with h1 h2x
                injection h2x with h3 h4
                cases h3
                exact absurd hd2 h2
      · apply iff_of_false
        · simp [afterSubj, hd, hsp]
        · rintro ⟨sp, d, suf, hsp2, hd2, heq⟩
          rcases hsp2 with rfl | rfl
          · simp only [List.nil_append] at heq
            injection heq with h1 _
            cases h1
            exact absurd hd2 hd
          · simp only [List.singleton_append] at heq
            injection heq with h1 _
            exact absurd h1 hsp

/-- Helper: the anchored matcher never matches the empty remainder. -/
lemma matchHere_nil (subj : List Char) : matchHere subj [] = false := by
  cases subj <;> rfl

/-- Helper: the anchored matcher succeeds iff the text starts with the
subject code, an optional single space, and a digit. -/
lemma matchHere_iff (subj cs : List Char) :
    matchHere subj cs = true ↔
      ∃ sp d suf, (sp = [] ∨ sp = [' ']) ∧ d.isDigit = true
        ∧ cs = subj ++ (sp ++ d :: suf) := by
  cases hdp : dropPref subj cs with
  | none =>
    apply iff_of_false
    · simp [matchHere, hdp]
    · rintro ⟨sp, d, suf, hsp, hd, rfl⟩
      have hps : dropPref subj (subj ++ (sp ++ d :: suf)) = Option.some (sp ++ d :: suf) :=
        (dropPref_eq_some subj _ _).mpr rfl
      rw [hdp] at hps
      exact Option.noConfusion hps
  | some rest =>
    have hcs : cs = subj ++ rest := (dropPref_eq_some subj cs rest).mp hdp
    subst hcs
    have hm : matchHere subj (subj ++ rest) = afterSubj rest := by
      simp [matchHere, hdp]
    rw [hm, afterSubj_iff]
    constructor
    · rintro ⟨sp, d, suf, hsp, hd, hrest⟩
      exact ⟨sp, d, suf, hsp, hd, by rw [hrest]⟩
    · rintro ⟨sp, d, suf, hsp, hd, heq⟩
      exact ⟨sp, d, suf, hsp, hd, List.append_cancel_left heq⟩

/-- Helper: the scan over all start positions succeeds iff the anchored
matcher succeeds at some split of the text. -/
lemma findsMatch_iff (subj : List Char) :
    ∀ cs, findsMatch subj cs = true ↔
      ∃ pre suf, cs = pre ++ suf ∧ matchHere subj suf = true := by
  intro cs
  induction cs with
  | nil =>
    apply iff_of_false
    · simp [findsMatch]
    · rintro ⟨pre, suf, heq, hm⟩
      obtain ⟨hp, hs⟩ := List.append_eq_nil.mp heq.symm
      subst hp; subst hs
      rw [matchHere_nil] at hm
      exact Bool.noConfusion hm
  | cons c cs ih =>
    simp only [findsMatch, Bool.or_eq_true, ih]
    constructor
    · rintro (hm | ⟨pre, suf, heq, hm⟩)
      · exact ⟨[], c :: cs, rfl, hm⟩
      · exact ⟨c :: pre, suf, by rw [heq]; rfl, hm⟩
    · rintro ⟨pre, suf, heq, hm⟩
      cases pre with
      | nil =>
        left
        simp only [List.nil_append] at heq
        rw [heq]
        exact hm
      | cons p pre2 =>
        right
        injection heq with h1 h2
        exact ⟨pre2, suf, h2, hm⟩

/-- C7: the agenda relevance filter returns true iff the event text contains
a configured subject code followed by an optional single space and at least
one digit; `"PLS 123"` and `"PEC456"` match, `"PLX 123"` does not. -/
theorem c7_relevance_filter (text : String) :
    (is_related_to_a_bill text = true ↔
      ∃ (subj : String) (pre sp suf : List Char) (d : Char),
        subj ∈ subjects ∧ (sp = [] ∨ sp = [' ']) ∧ d.isDigit = true
        ∧ text.toList = pre ++ subj.toList ++ sp ++ d :: suf)
    ∧ is_related_to_a_bill "PLS 123" = true
    ∧ is_related_to_a_bill "PEC456" = true
    ∧ is_related_to_a_bill "PLX 123" = false := by
  refine ⟨?_, by decide, by decide, by decide⟩
  rw [is_related_to_a_bill, List.any_eq_true]
  constructor
  · rintro ⟨subj, hsubj, hfind⟩
    rw [findsMatch_iff] at hfind
    obtain ⟨pre, suf0, heq, hm⟩ := hfind
    rw [matchHere_iff] at hm
    obtain ⟨sp, d, suf, hsp, hd, hsuf0⟩ := hm
    refine ⟨subj, pre, sp, suf, d, hsubj, hsp, hd, ?_⟩
    rw [heq, hsuf0]
    simp [List.append_assoc]
  · rintro ⟨subj, pre, sp, suf, d, hsubj, hsp, hd, heq⟩
    refine ⟨subj, hsubj, ?_⟩
    rw [findsMatch_iff]
    refine ⟨pre, subj.toList ++ (sp ++ d :: suf), ?_, ?_⟩
    · rw [heq]
      simp [List.append_assoc]
    · rw [matchHere_iff]
      exact ⟨sp, d, suf, hsp, hd, rfl⟩
